import Mathlib

/-!
Verification of CHAI's `ManagedArray` (src/src/ManagedArray.hpp) against its
specification.  The header under src/ carries the class declaration and the one
inline function body (`makeManagedArray`); the member-function bodies live in
`ManagedArray.inl` / `ArrayManager.cpp`, which are not part of the sources, so
those operations are modelled from the specification text, as marked on each
definition.  The embedding tracks a single logical array: every handle in scope
references the same ArrayManager record, which is how every claim under study
uses the class.
-/

set_option maxHeartbeats 1000000

namespace Chai

/-- Execution spaces (chai Types): the sentinel NONE ("unspecified / default")
plus the two concrete memory spaces of a host/accelerator build. -/
inductive ExecutionSpace where
  | NONE
  | CPU
  | GPU
  deriving DecidableEq

/-- Kinds of memory events reported to a user callback (spec section 6):
allocation, deallocation, data motion. -/
inductive Action where
  | ACTION_ALLOC
  | ACTION_FREE
  | ACTION_MOVE
  deriving DecidableEq

/-- One invocation of the user callback: the action kind, the execution space
acted on, and the number of bytes concerned (spec sections 4.2 and 6). -/
structure Event where
  action : Action
  space : ExecutionSpace
  bytes : Nat
  deriving DecidableEq

/-- Abort-class programmer-contract violations (spec section 7). -/
inductive ChaiError where
  | UseAfterFree
  | DoubleFree
  | ReallocateUnallocated
  deriving DecidableEq

/-- Modelled from the spec: the ArrayManager's record for one logical array
(spec sections 2 and 6): per-space memory contents (element-indexed, total
functions standing for raw storage), per-space allocation flags, per-space
up-to-date flags, the space holding the most recent write (`touched`, none when
no space has been touched or after `reset`), the registered byte size, the
element count, and the ownership flag set at wrap time. -/
structure PointerRecord where
  cpuMem : Nat → Nat
  gpuMem : Nat → Nat
  cpuResident : Bool
  gpuResident : Bool
  cpuValid : Bool
  gpuValid : Bool
  touched : Option ExecutionSpace
  byteSize : Nat
  elems : Nat
  owned : Bool

/-- Memory contents of the buffer resident in a space (the sentinel NONE holds
no storage). -/
def PointerRecord.memIn (r : PointerRecord) : ExecutionSpace → Nat → Nat
  | .CPU => r.cpuMem
  | .GPU => r.gpuMem
  | .NONE => fun _ => 0

/-- Whether a buffer is allocated in the given space. -/
def PointerRecord.residentIn (r : PointerRecord) : ExecutionSpace → Bool
  | .CPU => r.cpuResident
  | .GPU => r.gpuResident
  | .NONE => false

/-- Whether the given space holds an up-to-date resident copy. -/
def PointerRecord.validIn (r : PointerRecord) : ExecutionSpace → Bool
  | .CPU => r.cpuValid
  | .GPU => r.gpuValid
  | .NONE => false

/-- Replace the memory contents of the buffer in a space (no storage behind the
sentinel NONE, so that case is the identity). -/
def PointerRecord.setMem (r : PointerRecord) : ExecutionSpace → (Nat → Nat) → PointerRecord
  | .CPU, f => { r with cpuMem := f }
  | .GPU, f => { r with gpuMem := f }
  | .NONE, _ => r

/-- Mark a space as holding an allocated buffer. -/
def PointerRecord.setResident (r : PointerRecord) : ExecutionSpace → PointerRecord
  | .CPU => { r with cpuResident := true }
  | .GPU => { r with gpuResident := true }
  | .NONE => r

/-- Mark a space as holding an up-to-date copy. -/
def PointerRecord.setValid (r : PointerRecord) : ExecutionSpace → PointerRecord
  | .CPU => { r with cpuValid := true }
  | .GPU => { r with gpuValid := true }
  | .NONE => r

/-- Modelled from the spec: registering a touch in a space (spec sections 4.2b
and 6 and the glossary) marks that space as holding the most recent write,
which makes every other space's copy stale (a subsequent read from any other
space requires a fresh migration before use). -/
def PointerRecord.touch (r : PointerRecord) : ExecutionSpace → PointerRecord
  | .CPU => { r with touched := some .CPU, cpuValid := true, gpuValid := false, cpuResident := true }
  | .GPU => { r with touched := some .GPU, cpuValid := false, gpuValid := true, gpuResident := true }
  | .NONE => { r with touched := some .NONE, cpuValid := false, gpuValid := false }

/-- Modelled from the spec: `resolve_for_current_context` without the touch step
(spec section 4.2a): return the record updated so that `ctx` holds an
up-to-date copy.  If `ctx` is already valid nothing happens; otherwise, if some
space holds the most recent write the data (the `elems`-element payload) is
migrated from it and one MOVE callback of `byteSize` bytes fires; if no space
has ever been touched the first accessed space becomes authoritative with no
copy performed and no callback. -/
def PointerRecord.resolveStep (r : PointerRecord) (ctx : ExecutionSpace) :
    PointerRecord × List Event :=
  if r.validIn ctx then (r, [])
  else
    match r.touched with
    | some t =>
      (((r.setMem ctx fun i => if i < r.elems then r.memIn t i else r.memIn ctx i).setValid
          ctx).setResident ctx,
       [⟨Action.ACTION_MOVE, ctx, r.byteSize⟩])
    | none => ((r.setValid ctx).setResident ctx, [])

/-- Modelled from the spec: full residency resolution (spec sections 4.2a-b and
6): resolve the record for `ctx`, then, when the element type is non-const
(`mut` true), mark `ctx` touched. -/
def PointerRecord.resolve (r : PointerRecord) (ctx : ExecutionSpace) (mutating : Bool) :
    PointerRecord × List Event :=
  let res := r.resolveStep ctx
  (if mutating then res.1.touch ctx else res.1, res.2)

/-- Modelled from the spec: `reallocate_all` (spec sections 4.4 and 6) resizes
the storage in every space currently holding a resident copy, preserving the
first min(old, new) elements there (storage beyond the preserved ones is fresh,
modelled as zero), and updates the recorded sizes. -/
def PointerRecord.reallocAll (r : PointerRecord) (k : Nat) (newBytes : Nat) : PointerRecord :=
  { r with
    cpuMem := if r.cpuResident then fun i => if i < min r.elems k then r.cpuMem i else 0
              else r.cpuMem,
    gpuMem := if r.gpuResident then fun i => if i < min r.elems k then r.gpuMem i else 0
              else r.gpuMem,
    elems := k,
    byteSize := newBytes }

/-- Modelled from the spec: the process-wide ArrayManager singleton (spec
sections 2 and 6), reduced to the record of the one logical array under study
plus the log of callback invocations it has issued. -/
structure ArrayManager where
  record : Option PointerRecord
  events : List Event

/-- The empty record used when registering or allocating storage: no space
resident or valid, nothing touched yet. -/
def emptyRecord (byteSize elems : Nat) (owned : Bool) : PointerRecord :=
  { cpuMem := fun _ => 0, gpuMem := fun _ => 0,
    cpuResident := false, gpuResident := false,
    cpuValid := false, gpuValid := false,
    touched := none, byteSize := byteSize, elems := elems, owned := owned }

/-- Modelled from the spec: `ArrayManager::makeManaged` (spec section 6)
registers externally supplied memory, resident and up to date in the given
space, with the given byte size and ownership flag, and returns the managed
pointer (modelled as the space whose buffer it designates).  The C++ interface
receives only the byte size; the model also receives the element count since
its memory is element-indexed. -/
def ArrayManager.makeManaged (am : ArrayManager) (data : Nat → Nat) (byteSize elems : Nat)
    (space : ExecutionSpace) (owned : Bool) : Option ExecutionSpace × ArrayManager :=
  let r := (((emptyRecord byteSize elems owned).setMem space data).setValid space).setResident space
  (some space, { am with record := some r })

/-- Modelled from the spec: `ArrayManager::registerTouch` (spec section 6),
explicit touch marking; a null pointer or an unregistered array is left
alone. -/
def ArrayManager.registerTouch (am : ArrayManager) (p : Option ExecutionSpace)
    (space : ExecutionSpace) : ArrayManager :=
  match p, am.record with
  | some _, some r => { am with record := some (r.touch space) }
  | _, _ => am

/-- Modelled from the spec: `ArrayManager::allocate` (spec section 6) creates
fresh storage of the given byte size in the given space and fires the ALLOC
callback. -/
def ArrayManager.allocate (am : ArrayManager) (byteSize elems : Nat)
    (space : ExecutionSpace) : ArrayManager :=
  { record := some (((emptyRecord byteSize elems true).setValid space).setResident space),
    events := am.events ++ [⟨Action.ACTION_ALLOC, space, byteSize⟩] }

/-- The handle itself (ManagedArray.hpp:227-247): the cached active pointer
(modelled as the space whose resident buffer it points into, none standing for
null), the pointer to the ArrayManager singleton (an opaque identifier), the
element count, and the observable flag distinguishing primary from incidental
copies.  `isConst` carries the constness of the C++ element type parameter T as
data. -/
structure ManagedArray where
  m_active_pointer : Option ExecutionSpace
  m_resource_manager : Nat
  m_elems : Nat
  observable : Bool
  isConst : Bool
  deriving DecidableEq

/-- Modelled from the spec: the default constructor (ManagedArray.hpp:82, spec
section 4.1): empty handle, null active pointer, count 0, no allocation. -/
def ManagedArray.defaultCtor (isConst : Bool) : ManagedArray :=
  { m_active_pointer := none, m_resource_manager := 0, m_elems := 0,
    observable := true, isConst := isConst }

/-- Modelled from the spec: construction from / assignment of nullptr
(ManagedArray.hpp:110 and 221, spec section 4.1) resets to the empty state
without consulting the Tracker. -/
def ManagedArray.nullAssign (a : ManagedArray) : ManagedArray :=
  { a with m_active_pointer := none, m_elems := 0 }

/-- Modelled from the spec: the raw-pointer constructor (ManagedArray.hpp:192-193,
spec section 9): wraps an already-managed pointer into a typed handle.  It
receives the pointer alone; the spec hands it no element count, so the model
records none. -/
def ManagedArray.fromPointer (isConst : Bool) (p : Option ExecutionSpace) : ManagedArray :=
  { m_active_pointer := p, m_resource_manager := 0, m_elems := 0,
    observable := true, isConst := isConst }

/-- Modelled from the spec: `allocate` (ManagedArray.hpp:121-122, spec section
4.4), a host-side call: delegates to the Tracker and sets the active pointer to
the space the call executes in (the host, CPU) when that equals the allocation
space, else null until the first observable copy resolves it.  A space argument
of NONE picks the default allocation space, CPU. -/
def ManagedArray.allocate (a : ManagedArray) (sizeofT elems : Nat) (space : ExecutionSpace)
    (am : ArrayManager) : ManagedArray × ArrayManager :=
  let eff := if space = ExecutionSpace.NONE then ExecutionSpace.CPU else space
  ({ a with m_elems := elems,
            m_active_pointer := if eff = ExecutionSpace.CPU then some ExecutionSpace.CPU
                                else none },
   am.allocate (sizeofT * elems) elems eff)

/-- Modelled from the spec: the sized constructor (ManagedArray.hpp:95, spec
section 4.1) builds an empty handle and allocates. -/
def ManagedArray.sizedCtor (isConst : Bool) (sizeofT elems : Nat) (space : ExecutionSpace)
    (am : ArrayManager) : ManagedArray × ArrayManager :=
  (ManagedArray.defaultCtor isConst).allocate sizeofT elems space am

/-- Modelled from the spec: the copy constructor (ManagedArray.hpp:105, spec
section 4.2), the central algorithm.  `ctx` is the execution space of the
context the copy is constructed in.  An incidental copy (observable false)
takes every field verbatim, keeps observable false, and makes no Tracker call;
a primary copy of a handle referencing storage resolves residency for `ctx`,
touches `ctx` when the element type is non-const, and is itself observable. -/
def copyCtor (ctx : ExecutionSpace) (other : ManagedArray) (am : ArrayManager) :
    ManagedArray × ArrayManager :=
  if other.observable = false then
    ({ other with observable := false }, am)
  else
    match other.m_active_pointer with
    | none => ({ other with observable := true }, am)
    | some _ =>
      match am.record with
      | none => ({ other with observable := true }, am)
      | some r =>
        let res := r.resolve ctx (!other.isConst)
        ({ m_active_pointer := some ctx,
           m_resource_manager := other.m_resource_manager,
           m_elems := other.m_elems,
           observable := true,
           isConst := other.isConst },
         { record := some res.1, events := am.events ++ res.2 })

/-- The Tracker state after one copy of `other` constructed in `ctx`. -/
def copyStep (ctx : ExecutionSpace) (other : ManagedArray) (am : ArrayManager) : ArrayManager :=
  (copyCtor ctx other am).2

/-- Tracker state after n copies of the same handle constructed in `ctx`
(copying an outer value wrapping the handle n times runs the handle's copy
constructor n times from the same source). -/
def copyN (ctx : ExecutionSpace) (other : ManagedArray) : Nat → ArrayManager → ArrayManager
  | 0, am => am
  | Nat.succ n, am => copyN ctx other n (copyStep ctx other am)

/-- Whether a callback invocation reports a data migration. -/
def isMove (e : Event) : Bool :=
  match e.action with
  | .ACTION_MOVE => true
  | _ => false

/-- Number of migration callbacks the Tracker has issued. -/
def moveCount (am : ArrayManager) : Nat :=
  (am.events.filter isMove).length

/-- Modelled from the spec: `operator[]` (ManagedArray.hpp:167-168, spec
sections 4.3 and 7): returns a reference into the active pointer offset by the
index, modelled as the pair (space of the buffer the active pointer designates,
element offset).  No bounds check and no migration are performed; calling it
through a null active pointer (in particular after `free`) is the UseAfterFree
abort-class contract violation. -/
def opIndex (a : ManagedArray) (i : Nat) : Except ChaiError (ExecutionSpace × Nat) :=
  match a.m_active_pointer with
  | none => .error .UseAfterFree
  | some sp => .ok (sp, i)

/-- Value read through the reference `operator[]` returns, dereferenced against
the Tracker's current storage. -/
def readElem (a : ManagedArray) (am : ArrayManager) (i : Nat) : Except ChaiError Nat :=
  match opIndex a i with
  | .error e => .error e
  | .ok x =>
    match am.record with
    | some r => .ok (r.memIn x.1 x.2)
    | none => .ok 0

/-- Modelled from the spec: `free` (ManagedArray.hpp:136, spec section 4.4):
releases storage in every resident space when the allocation is owned (one FREE
callback per resident space), drops the record, and resets the handle to
empty. -/
def ManagedArray.free (a : ManagedArray) (am : ArrayManager) : ManagedArray × ArrayManager :=
  ({ a with m_active_pointer := none, m_elems := 0 },
   match am.record with
   | none => am
   | some r =>
     { record := none,
       events := am.events ++
         (if r.owned then
           (if r.cpuResident then [⟨Action.ACTION_FREE, ExecutionSpace.CPU, r.byteSize⟩] else []) ++
           (if r.gpuResident then [⟨Action.ACTION_FREE, ExecutionSpace.GPU, r.byteSize⟩] else [])
         else []) })

/-- Modelled from the spec: `reallocate` (ManagedArray.hpp:131, spec section
4.4): requires an existing allocation, resizes storage in every resident space
through the Tracker, and updates the handle's element count. -/
def ManagedArray.reallocate (a : ManagedArray) (am : ArrayManager) (sizeofT k : Nat) :
    Except ChaiError (ManagedArray × ArrayManager) :=
  match am.record with
  | none => .error .ReallocateUnallocated
  | some r =>
    .ok ({ a with m_elems := k },
         { am with record := some (r.reallocAll k (sizeofT * k)) })

/-- Modelled from the spec: `reset` (ManagedArray.hpp:144, spec section 4.4):
clears the Tracker's touched-state for this array without moving or freeing
anything; the handle itself is unchanged. -/
def ManagedArray.reset (a : ManagedArray) (am : ArrayManager) : ManagedArray × ArrayManager :=
  (a, { am with record := am.record.map fun r => { r with touched := none } })

/-- Modelled from the spec: the conversion to a const-element handle
(ManagedArray.hpp:215-216, spec section 4.5): same fields over the same Tracker
record, with the element type now const.  The enable_if guard on the C++
operator makes it available exactly on non-const-element handles. -/
def ManagedArray.toConstView (a : ManagedArray) (am : ArrayManager) :
    ManagedArray × ArrayManager :=
  ({ a with isConst := true }, am)

/-- The enable_if condition of the const-view conversion (ManagedArray.hpp:215):
the operator exists if and only if the element type is non-const. -/
def constConversionAvailable (a : ManagedArray) : Bool :=
  !a.isConst

/-- `makeManagedArray` (ManagedArray.hpp:266-283, the one function body under
src/): fetch the manager, register the raw pointer with byte size
sizeof(T)*elems and the given ownership, register a touch on the given space
when the element type is non-const, and return a handle constructed from the
managed pointer alone.  `isConst` mirrors std::is_const of T and `sizeofT`
mirrors sizeof(T). -/
def makeManagedArray (isConst : Bool) (sizeofT : Nat) (data : Nat → Nat) (elems : Nat)
    (space : ExecutionSpace) (owned : Bool) (am : ArrayManager) :
    ManagedArray × ArrayManager :=
  let manager := am
  let res := manager.makeManaged data (sizeofT * elems) elems space owned
  let managed_data := res.1
  let am2 := if !isConst then res.2.registerTouch managed_data space else res.2
  (ManagedArray.fromPointer isConst managed_data, am2)

/-- The nullity invariant of spec section 3, with the handle's logical capacity
read off its element count: the active pointer is null exactly when the handle
is empty. -/
def nullIffEmpty (a : ManagedArray) : Prop :=
  a.m_active_pointer = none ↔ a.m_elems = 0

/-- Sample memory contents used to instantiate theorems. -/
def mem0 : Nat → Nat := fun i => i + 10

/-- Sample record: four elements authored and resident in CPU. -/
def rec0 : PointerRecord :=
  { cpuMem := mem0, gpuMem := fun _ => 0,
    cpuResident := true, gpuResident := false,
    cpuValid := true, gpuValid := false,
    touched := some .CPU, byteSize := 16, elems := 4, owned := true }

/-- Sample manager tracking `rec0` with an empty callback log. -/
def am0 : ArrayManager := { record := some rec0, events := [] }

/-- Sample manager tracking nothing. -/
def amEmpty : ArrayManager := { record := none, events := [] }

/-- Sample primary handle over `rec0`, resolved into CPU. -/
def h0 : ManagedArray :=
  { m_active_pointer := some .CPU, m_resource_manager := 0, m_elems := 4,
    observable := true, isConst := false }

/-- Sample incidental copy of `h0`. -/
def hInc : ManagedArray := { h0 with observable := false }

/-- C3: every call to makeManagedArray registers the pointer with the Tracker
with byte size sizeof(T)*elems and the given owned flag, and the given space is
registered as touched exactly when the element type T is non-const. -/
theorem c3_makeManagedArray_registers (isConst : Bool) (sizeofT : Nat) (data : Nat → Nat)
    (elems : Nat) (space : ExecutionSpace) (owned : Bool) (am : ArrayManager) :
    ∃ r, (makeManagedArray isConst sizeofT data elems space owned am).2.record = some r ∧
      (r.touched = some space ↔ isConst = false) ∧
      r.byteSize = sizeofT * elems ∧ r.owned = owned := by
  cases isConst <;> cases space <;>
    exact ⟨_, rfl,
      by simp [makeManagedArray, ArrayManager.makeManaged, ArrayManager.registerTouch,
        emptyRecord, PointerRecord.setMem, PointerRecord.setValid, PointerRecord.setResident,
        PointerRecord.touch],
      rfl, rfl⟩

/-- C10: the elems argument of makeManagedArray only sizes the Tracker
registration (byte size sizeof(T)*elems); the returned handle is built from the
managed pointer alone, hence identical for any two element counts, its own
element count not set from elems. -/
theorem c10_makeManagedArray_handle_ignores_elems (isConst : Bool) (sizeofT : Nat)
    (data : Nat → Nat) (e1 e2 : Nat) (space : ExecutionSpace) (owned : Bool)
    (am : ArrayManager) :
    (makeManagedArray isConst sizeofT data e1 space owned am).1 =
      (makeManagedArray isConst sizeofT data e2 space owned am).1 ∧
    (makeManagedArray isConst sizeofT data e1 space owned am).1 =
      ManagedArray.fromPointer isConst (some space) ∧
    ∃ r, (makeManagedArray isConst sizeofT data e1 space owned am).2.record = some r ∧
      r.byteSize = sizeofT * e1 :=
  ⟨rfl, rfl, by cases isConst <;> cases space <;> exact ⟨_, rfl, rfl⟩⟩

/-- C4: after free() every operator[] call fails immediately with the
UseAfterFree abort-class error. -/
theorem c4_use_after_free (a : ManagedArray) (am : ArrayManager) (i : Nat) :
    opIndex ((a.free am).1) i = .error .UseAfterFree := rfl

/-- C8: operator[] on a resolved handle returns the reference at the active
pointer offset by the index, for every index (in particular with no bounds
check: the element count is irrelevant to the result), consulting no Tracker
state. -/
theorem c8_opIndex_offset (a : ManagedArray) (i : Nat) (sp : ExecutionSpace)
    (h : a.m_active_pointer = some sp) :
    opIndex a i = .ok (sp, i) ∧
    ∀ m : Nat, opIndex { a with m_elems := m } i = .ok (sp, i) := by
  constructor
  · simp [opIndex, h]
  · intro m
    simp [opIndex, h]

/-- C8 witness: the sample handle resolved into CPU, indexed out of range
(index 7 against element count 4). -/
theorem c8_witness : opIndex h0 7 = .ok (.CPU, 7) :=
  (c8_opIndex_offset h0 7 .CPU rfl).1

/-- C7: a non-const-element handle converts to a const-element view with
identical active pointer, element count and manager reference, over the same
Tracker record (no Tracker state changes, no second allocation), and the
enable_if guard leaves no conversion available on const-element handles. -/
theorem c7_const_view (a : ManagedArray) (am : ArrayManager) (h : a.isConst = false) :
    constConversionAvailable a = true ∧
    (a.toConstView am).1.isConst = true ∧
    (a.toConstView am).1.m_active_pointer = a.m_active_pointer ∧
    (a.toConstView am).1.m_elems = a.m_elems ∧
    (a.toConstView am).1.m_resource_manager = a.m_resource_manager ∧
    (a.toConstView am).2 = am ∧
    ∀ b : ManagedArray, b.isConst = true → constConversionAvailable b = false := by
  refine ⟨?_, rfl, rfl, rfl, rfl, rfl, ?_⟩
  · simp [constConversionAvailable, h]
  · intro b hb
    simp [constConversionAvailable, hb]

/-- C7 witness: the conversion is available on the sample non-const handle. -/
theorem c7_witness : constConversionAvailable h0 = true :=
  (c7_const_view h0 am0 rfl).1

/-- C5: reallocate(k) on an allocated handle resizes storage in every space
holding a resident copy, preserves the first min(n, k) elements there, and sets
the handle's element count to k; in particular with k < n the indices below k
in any previously resident space keep their original values. -/
theorem c5_reallocate_preserves (a : ManagedArray) (am : ArrayManager) (sizeofT k : Nat)
    (r : PointerRecord) (hrec : am.record = some r) :
    ∃ a2 am2 r2, a.reallocate am sizeofT k = .ok (a2, am2) ∧
      am2.record = some r2 ∧ a2.m_elems = k ∧ r2.elems = k ∧
      r2.byteSize = sizeofT * k ∧
      (∀ sp, r.residentIn sp = true → r2.residentIn sp = true ∧
        ∀ i, i < min r.elems k → r2.memIn sp i = r.memIn sp i) ∧
      (∀ sp, r.residentIn sp = true → k < r.elems →
        ∀ i, i < k → r2.memIn sp i = r.memIn sp i) := by
  refine ⟨{ a with m_elems := k },
    { am with record := some (r.reallocAll k (sizeofT * k)) },
    r.reallocAll k (sizeofT * k), ?_, rfl, rfl, rfl, rfl, ?_, ?_⟩
  · simp [ManagedArray.reallocate, hrec]
  · intro sp hres
    cases sp with
    | NONE => simp [PointerRecord.residentIn] at hres
    | CPU =>
      simp only [PointerRecord.residentIn] at hres
      refine ⟨by simp [PointerRecord.residentIn, PointerRecord.reallocAll, hres], ?_⟩
      intro i hi
      simp only [PointerRecord.memIn, PointerRecord.reallocAll, hres, if_true]
      rw [if_pos hi]
    | GPU =>
      simp only [PointerRecord.residentIn] at hres
      refine ⟨by simp [PointerRecord.residentIn, PointerRecord.reallocAll, hres], ?_⟩
      intro i hi
      simp only [PointerRecord.memIn, PointerRecord.reallocAll, hres, if_true]
      rw [if_pos hi]
  · intro sp hres hk i hi
    cases sp with
    | NONE => simp [PointerRecord.residentIn] at hres
    | CPU =>
      simp only [PointerRecord.residentIn] at hres
      have hmin : i < min r.elems k := by omega
      simp only [PointerRecord.memIn, PointerRecord.reallocAll, hres, if_true]
      rw [if_pos hmin]
    | GPU =>
      simp only [PointerRecord.residentIn] at hres
      have hmin : i < min r.elems k := by omega
      simp only [PointerRecord.memIn, PointerRecord.reallocAll, hres, if_true]
      rw [if_pos hmin]

/-- C5 witness: shrinking the sample four-element allocation to two elements
keeps index 1 of the CPU copy intact. -/
theorem c5_witness :
    ∃ a2 am2 r2, h0.reallocate am0 4 2 = .ok (a2, am2) ∧
      am2.record = some r2 ∧ a2.m_elems = 2 ∧ r2.elems = 2 ∧
      r2.byteSize = 8 ∧
      (∀ sp, rec0.residentIn sp = true → r2.residentIn sp = true ∧
        ∀ i, i < min rec0.elems 2 → r2.memIn sp i = rec0.memIn sp i) ∧
      (∀ sp, rec0.residentIn sp = true → 2 < rec0.elems →
        ∀ i, i < 2 → r2.memIn sp i = rec0.memIn sp i) :=
  c5_reallocate_preserves h0 am0 4 2 rec0 rfl

/-- C6: reset leaves the handle untouched, moves and frees nothing (the record
keeps its storage, sizes and callback log, only the touched bookkeeping is
cleared), and a subsequent copy into any space issues no migration callback
regardless of the prior touched state. -/
theorem c6_reset_clears (a : ManagedArray) (am : ArrayManager) (ctx : ExecutionSpace) :
    (a.reset am).1 = a ∧
    (a.reset am).2.events = am.events ∧
    (∀ r, am.record = some r → (a.reset am).2.record = some { r with touched := none }) ∧
    (copyCtor ctx (a.reset am).1 (a.reset am).2).2.events = (a.reset am).2.events := by
  refine ⟨rfl, rfl, ?_, ?_⟩
  · intro r h
    simp [ManagedArray.reset, h]
  · cases hobs : a.observable with
    | false => simp [copyCtor, ManagedArray.reset, hobs]
    | true =>
      cases hp : a.m_active_pointer with
      | none => simp [copyCtor, ManagedArray.reset, hobs, hp]
      | some sp =>
        cases hrec : am.record with
        | none => simp [copyCtor, ManagedArray.reset, hobs, hp, hrec]
        | some r =>
          have h2 : (PointerRecord.resolveStep { r with touched := none } ctx).2 = [] := by
            unfold PointerRecord.resolveStep
            split
            · rfl
            · rfl
          simp [copyCtor, ManagedArray.reset, hobs, hp, hrec, PointerRecord.resolve, h2]

/-- C6 witness: resetting the sample CPU-touched array and copying into GPU
leaves the callback log unchanged. -/
theorem c6_witness :
    (copyCtor .GPU (h0.reset am0).1 (h0.reset am0).2).2.events = (h0.reset am0).2.events ∧
    (h0.reset am0).2.record = some { rec0 with touched := none } :=
  ⟨(c6_reset_clears h0 am0 .GPU).2.2.2, (c6_reset_clears h0 am0 .GPU).2.2.1 rec0 rfl⟩

/-- Touching a space twice is the same as touching it once. -/
theorem PointerRecord.touch_idem (r : PointerRecord) (ctx : ExecutionSpace) :
    (r.touch ctx).touch ctx = r.touch ctx := by
  cases ctx <;> rfl

/-- A just-touched concrete space holds a valid copy. -/
theorem PointerRecord.validIn_touch (r : PointerRecord) (ctx : ExecutionSpace)
    (h : ctx ≠ .NONE) : (r.touch ctx).validIn ctx = true := by
  cases ctx with
  | NONE => exact absurd rfl h
  | CPU => rfl
  | GPU => rfl

/-- Resolving residency for a concrete context leaves that context valid. -/
theorem PointerRecord.validIn_resolveStep (r : PointerRecord) (ctx : ExecutionSpace)
    (h : ctx ≠ .NONE) : ((r.resolveStep ctx).1).validIn ctx = true := by
  unfold PointerRecord.resolveStep
  split
  case isTrue hv => exact hv
  case isFalse hv =>
    cases r.touched with
    | some t =>
      cases ctx with
      | NONE => exact absurd rfl h
      | CPU => rfl
      | GPU => rfl
    | none =>
      cases ctx with
      | NONE => exact absurd rfl h
      | CPU => rfl
      | GPU => rfl

/-- Full resolution (with or without the touch step) leaves the context
valid. -/
theorem PointerRecord.validIn_resolve (r : PointerRecord) (ctx : ExecutionSpace) (m : Bool)
    (h : ctx ≠ .NONE) : ((r.resolve ctx m).1).validIn ctx = true := by
  cases m with
  | false => exact PointerRecord.validIn_resolveStep r ctx h
  | true => exact PointerRecord.validIn_touch (r.resolveStep ctx).1 ctx h

/-- Resolving an already-valid context is a no-op with no callback. -/
theorem resolveStep_of_valid (r : PointerRecord) (ctx : ExecutionSpace)
    (hv : r.validIn ctx = true) : r.resolveStep ctx = (r, []) := by
  unfold PointerRecord.resolveStep
  simp [hv]

/-- Resolving twice for the same concrete context is the same as resolving
once, and the second resolution fires no callback. -/
theorem resolve_idem (r : PointerRecord) (ctx : ExecutionSpace) (m : Bool) (h : ctx ≠ .NONE) :
    ((r.resolve ctx m).1).resolve ctx m = ((r.resolve ctx m).1, []) := by
  have hv := PointerRecord.validIn_resolve r ctx m h
  show (if m then (((r.resolve ctx m).1).resolveStep ctx).1.touch ctx
        else (((r.resolve ctx m).1).resolveStep ctx).1,
        (((r.resolve ctx m).1).resolveStep ctx).2) = ((r.resolve ctx m).1, [])
  rw [resolveStep_of_valid _ _ hv]
  cases m with
  | false => rfl
  | true =>
    have hr : (r.resolve ctx true).1 = (r.resolveStep ctx).1.touch ctx := rfl
    rw [hr, PointerRecord.touch_idem]
    rfl

/-- One run of the copy constructor issues at most one migration callback. -/
theorem moveCount_copyStep_le (ctx : ExecutionSpace) (a : ManagedArray) (am : ArrayManager) :
    moveCount (copyStep ctx a am) ≤ moveCount am + 1 := by
  unfold copyStep copyCtor
  split
  · exact Nat.le_succ_of_le (Nat.le_refl _)
  · cases hp : a.m_active_pointer with
    | none => exact Nat.le_succ_of_le (Nat.le_refl _)
    | some sp =>
      cases hrec : am.record with
      | none => exact Nat.le_succ_of_le (Nat.le_refl _)
      | some r =>
        simp only [moveCount, PointerRecord.resolve, List.filter_append, List.length_append]
        have hlen : ((r.resolveStep ctx).2.filter isMove).length ≤ 1 := by
          unfold PointerRecord.resolveStep
          split
          · simp
          · cases r.touched <;> simp [isMove]
        omega

/-- A second copy of the same handle into the same concrete context changes the
Tracker no further. -/
theorem copyStep_idem (ctx : ExecutionSpace) (a : ManagedArray) (am : ArrayManager)
    (h : ctx ≠ .NONE) : copyStep ctx a (copyStep ctx a am) = copyStep ctx a am := by
  cases hobs : a.observable with
  | false => simp [copyStep, copyCtor, hobs]
  | true =>
    cases hp : a.m_active_pointer with
    | none => simp [copyStep, copyCtor, hobs, hp]
    | some sp =>
      cases hrec : am.record with
      | none => simp [copyStep, copyCtor, hobs, hp, hrec]
      | some r =>
        have hidem := resolve_idem r ctx (!a.isConst) h
        simp [copyStep, copyCtor, hobs, hp, hrec, hidem]

/-- Iterating the copy constructor on an already-copied Tracker state is
stable. -/
theorem copyN_stable (ctx : ExecutionSpace) (a : ManagedArray) (h : ctx ≠ .NONE) :
    ∀ n am, copyN ctx a n (copyStep ctx a am) = copyStep ctx a am := by
  intro n
  induction n with
  | zero => intro am; rfl
  | succ n ih =>
    intro am
    show copyN ctx a n (copyStep ctx a (copyStep ctx a am)) = copyStep ctx a am
    rw [copyStep_idem ctx a am h]
    exact ih am

/-- C1: copying a handle whose observable flag is false is an incidental copy —
the fields come over verbatim, the observable flag stays false, and no Tracker
call is made; and since only the first primary copy into a context can migrate,
running the copy constructor n times from the same handle (as happens when the
value wrapping it is copied n times) issues at most one migration callback in
total, not n. -/
theorem c1_incidental_copy (ctx : ExecutionSpace) (a : ManagedArray) (am : ArrayManager) :
    (a.observable = false → copyCtor ctx a am = ({ a with observable := false }, am)) ∧
    (ctx ≠ .NONE → ∀ n, moveCount (copyN ctx a n am) ≤ moveCount am + 1) := by
  constructor
  · intro h
    simp [copyCtor, h]
  · intro h n
    cases n with
    | zero => exact Nat.le_succ_of_le (Nat.le_refl _)
    | succ n =>
      show moveCount (copyN ctx a n (copyStep ctx a am)) ≤ moveCount am + 1
      rw [copyN_stable ctx a h n am]
      exact moveCount_copyStep_le ctx a am

/-- C1 witness: copying the sample incidental handle makes no Tracker call, and
three outer copies of the sample primary handle into GPU cause at most one
migration callback. -/
theorem c1_witness :
    copyCtor .GPU hInc am0 = ({ hInc with observable := false }, am0) ∧
    moveCount (copyN .GPU h0 3 am0) ≤ moveCount am0 + 1 :=
  ⟨(c1_incidental_copy .GPU hInc am0).1 rfl,
   (c1_incidental_copy .GPU h0 am0).2 (by decide) 3⟩

/-- C2: observable copies of a handle across spaces A then B then back to A,
with no element writes in between, read in the final A context exactly the
data A held before the first copy (A authored the data: it is the touched
space; B starts without an up-to-date copy). -/
theorem c2_round_trip (A B : ExecutionSpace) (hA : A ≠ .NONE) (hB : B ≠ .NONE)
    (hAB : A ≠ B) (r : PointerRecord) (am : ArrayManager) (hrec : am.record = some r)
    (a : ManagedArray) (hobs : a.observable = true) (hptr : a.m_active_pointer = some A)
    (htouch : r.touched = some A) (hvalB : r.validIn B = false) :
    ∀ i, i < r.elems →
      readElem (copyCtor A (copyCtor B a am).1 (copyCtor B a am).2).1
               (copyCtor A (copyCtor B a am).1 (copyCtor B a am).2).2 i =
        .ok (r.memIn A i) := by
  intro i hi
  cases A with
  | NONE => exact absurd rfl hA
  | CPU =>
    cases B with
    | NONE => exact absurd rfl hB
    | CPU => exact absurd rfl hAB
    | GPU =>
      simp only [PointerRecord.validIn] at hvalB
      cases hc : a.isConst with
      | true =>
        cases hvA : r.cpuValid with
        | true =>
          simp [copyCtor, hobs, hptr, hrec, hc, PointerRecord.resolve,
            PointerRecord.resolveStep, PointerRecord.validIn, PointerRecord.touch,
            PointerRecord.setMem, PointerRecord.setValid, PointerRecord.setResident,
            PointerRecord.memIn, htouch, hvalB, hvA, readElem, opIndex, hi]
        | false =>
          simp [copyCtor, hobs, hptr, hrec, hc, PointerRecord.resolve,
            PointerRecord.resolveStep, PointerRecord.validIn, PointerRecord.touch,
            PointerRecord.setMem, PointerRecord.setValid, PointerRecord.setResident,
            PointerRecord.memIn, htouch, hvalB, hvA, readElem, opIndex, hi]
      | false =>
        simp [copyCtor, hobs, hptr, hrec, hc, PointerRecord.resolve,
          PointerRecord.resolveStep, PointerRecord.validIn, PointerRecord.touch,
          PointerRecord.setMem, PointerRecord.setValid, PointerRecord.setResident,
          PointerRecord.memIn, htouch, hvalB, readElem, opIndex, hi]
  | GPU =>
    cases B with
    | NONE => exact absurd rfl hB
    | GPU => exact absurd rfl hAB
    | CPU =>
      simp only [PointerRecord.validIn] at hvalB
      cases hc : a.isConst with
      | true =>
        cases hvA : r.gpuValid with
        | true =>
          simp [copyCtor, hobs, hptr, hrec, hc, PointerRecord.resolve,
            PointerRecord.resolveStep, PointerRecord.validIn, PointerRecord.touch,
            PointerRecord.setMem, PointerRecord.setValid, PointerRecord.setResident,
            PointerRecord.memIn, htouch, hvalB, hvA, readElem, opIndex, hi]
        | false =>
          simp [copyCtor, hobs, hptr, hrec, hc, PointerRecord.resolve,
            PointerRecord.resolveStep, PointerRecord.validIn, PointerRecord.touch,
            PointerRecord.setMem, PointerRecord.setValid, PointerRecord.setResident,
            PointerRecord.memIn, htouch, hvalB, hvA, readElem, opIndex, hi]
      | false =>
        simp [copyCtor, hobs, hptr, hrec, hc, PointerRecord.resolve,
          PointerRecord.resolveStep, PointerRecord.validIn, PointerRecord.touch,
          PointerRecord.setMem, PointerRecord.setValid, PointerRecord.setResident,
          PointerRecord.memIn, htouch, hvalB, readElem, opIndex, hi]

/-- C2 witness: the sample array authored in CPU, copied CPU to GPU to CPU,
reads its original element 2 back in CPU. -/
theorem c2_witness :
    readElem (copyCtor .CPU (copyCtor .GPU h0 am0).1 (copyCtor .GPU h0 am0).2).1
             (copyCtor .CPU (copyCtor .GPU h0 am0).1 (copyCtor .GPU h0 am0).2).2 2 =
      .ok (rec0.memIn .CPU 2) :=
  c2_round_trip .CPU .GPU (by decide) (by decide) (by decide) rec0 am0 rfl h0 rfl rfl rfl
    rfl 2 (by decide)

/-- C9 counterexample: allocating one element in GPU from host code leaves the
active pointer null (it resolves only at the first observable copy) while the
element count is already 1, so pointer nullity does not coincide with
emptiness after that operation. -/
theorem c9_counterexample :
    ¬ nullIffEmpty ((ManagedArray.defaultCtor false).allocate 4 1 .GPU amEmpty).1 := by
  simp [nullIffEmpty, ManagedArray.defaultCtor, ManagedArray.allocate]

/-- C9 amended: pointer nullity coincides with a zero element count after
default construction, nullptr assignment, copy, free, and reset, and after
sized construction, allocate, and reallocate of a positive number of elements
whose allocation space resolves to the executing host space (CPU), reallocate
being invoked through a handle that references the allocation.  Allocation of
a positive size into a space other than the executing one breaks the
equivalence (null pointer, nonzero count) until the first observable copy, and
a zero-sized allocation breaks it in the other direction. -/
theorem c9_null_iff_empty_amended :
    (∀ c : Bool, nullIffEmpty (ManagedArray.defaultCtor c)) ∧
    (∀ a : ManagedArray, nullIffEmpty (ManagedArray.nullAssign a)) ∧
    (∀ (c : Bool) (sizeofT k : Nat) (space : ExecutionSpace) (am : ArrayManager),
      0 < k → (space = .NONE ∨ space = .CPU) →
      nullIffEmpty (ManagedArray.sizedCtor c sizeofT k space am).1) ∧
    (∀ (a : ManagedArray) (sizeofT k : Nat) (space : ExecutionSpace) (am : ArrayManager),
      0 < k → (space = .NONE ∨ space = .CPU) →
      nullIffEmpty (a.allocate sizeofT k space am).1) ∧
    (∀ (ctx : ExecutionSpace) (a : ManagedArray) (am : ArrayManager),
      nullIffEmpty a → nullIffEmpty (copyCtor ctx a am).1) ∧
    (∀ (a : ManagedArray) (am : ArrayManager) (sizeofT k : Nat)
      (out : ManagedArray × ArrayManager), 0 < k → a.m_active_pointer ≠ none →
      a.reallocate am sizeofT k = .ok out → nullIffEmpty out.1) ∧
    (∀ (a : ManagedArray) (am : ArrayManager), nullIffEmpty (a.free am).1) ∧
    (∀ (a : ManagedArray) (am : ArrayManager),
      nullIffEmpty a → nullIffEmpty (a.reset am).1) := by
  refine ⟨?_, ?_, ?_, ?_, ?_, ?_, ?_, ?_⟩
  · intro c
    simp [nullIffEmpty, ManagedArray.defaultCtor]
  · intro a
    simp [nullIffEmpty, ManagedArray.nullAssign]
  · intro c sizeofT k space am hk hsp
    rcases hsp with h | h <;> subst h <;>
      simp only [nullIffEmpty, ManagedArray.sizedCtor, ManagedArray.allocate,
        ManagedArray.defaultCtor] <;>
      simp <;> omega
  · intro a sizeofT k space am hk hsp
    rcases hsp with h | h <;> subst h <;>
      simp only [nullIffEmpty, ManagedArray.allocate] <;>
      simp <;> omega
  · intro ctx a am hinv
    cases hobs : a.observable with
    | false => simpa [copyCtor, hobs, nullIffEmpty] using hinv
    | true =>
      cases hp : a.m_active_pointer with
      | none =>
        simpa [copyCtor, hobs, hp, nullIffEmpty] using hinv
      | some sp =>
        cases hrec : am.record with
        | none => simpa [copyCtor, hobs, hp, hrec, nullIffEmpty] using hinv
        | some r =>
          have hne : a.m_elems ≠ 0 := by
            intro h0elems
            have hcontra := hinv.mpr h0elems
            rw [hp] at hcontra
            exact Option.noConfusion hcontra
          simp [copyCtor, hobs, hp, hrec, nullIffEmpty, hne]
  · intro a am sizeofT k out hk hp hout
    cases hrec : am.record with
    | none => simp [ManagedArray.reallocate, hrec] at hout
    | some r =>
      simp only [ManagedArray.reallocate, hrec, Except.ok.injEq] at hout
      subst hout
      show a.m_active_pointer = none ↔ k = 0
      constructor
      · intro h
        exact absurd h hp
      · intro h
        omega
  · intro a am
    simp [nullIffEmpty, ManagedArray.free]
  · intro a am hinv
    simpa [ManagedArray.reset, nullIffEmpty] using hinv

/-- C9 witness: the amended invariant at a concrete positive host-space
allocation. -/
theorem c9_witness :
    nullIffEmpty ((ManagedArray.defaultCtor false).allocate 4 3 .CPU amEmpty).1 :=
  c9_null_iff_empty_amended.2.2.2.1 (ManagedArray.defaultCtor false) 4 3 .CPU amEmpty
    (by decide) (Or.inr rfl)

end Chai
